import Mathlib

/-!
Verification of the dispatch-and-orchestration engine of `common-tools`.

This file shallowly embeds the code of `src/src/dispatcher.py`,
`src/modules/comfyui/redis_client.py` and the planner / batch loop of
`src/src/service.py`, and proves (or refutes) the specified properties
about those embeddings.  Machine-level I/O (HTTP, Redis, disk) is
represented by explicit oracles: a network call becomes a function from
the call's inputs to `Except PyErr result`, and the Redis status store
becomes a lookup function `String → Option Json` plus an explicit list
of writes performed.
-/

set_option autoImplicit false

namespace CommonTools

/-- Model of the JSON values that flow through the dispatcher
(`json.loads` results, history responses, status records). -/
inductive Json where
  | null
  | str (s : String)
  | num (n : Int)
  | bool (b : Bool)
  | arr (elems : List Json)
  | obj (fields : List (String × Json))

/-- Python truthiness of a parsed JSON value (`if task_status and ...`):
`None`, `""`, `0`, `[]` and `{}` are falsy. -/
def jtruthy : Json → Bool
  | .null => false
  | .str s => !(s == "")
  | .num n => !(n == 0)
  | .bool b => b
  | .arr xs => !xs.isEmpty
  | .obj fs => !fs.isEmpty

/-- Model of the Python exceptions the dispatcher can raise or catch. -/
inductive PyErr where
  | keyError (key : String)
  | typeError
  | httpError (msg : String)
deriving DecidableEq

/-- Model of Python `str(e)` as used in `set_task_status(..., {"error": str(e)})`. -/
def errMsg : PyErr → String
  | .keyError k => "KeyError: " ++ k
  | .typeError => "TypeError"
  | .httpError m => m

/-- Python subscripting `j[k]`: raises `KeyError` when the key is absent
from a dict, `TypeError` when the value is not a dict. -/
def jindex (j : Json) (k : String) : Except PyErr Json :=
  match j with
  | .obj fields =>
    match fields.lookup k with
    | some v => .ok v
    | none => .error (.keyError k)
  | _ => .error .typeError

/-- Python membership test `k in j`: only valid on a dict. -/
def jhasKey (j : Json) (k : String) : Except PyErr Bool :=
  match j with
  | .obj fields => .ok (fields.any (fun f => f.1 == k))
  | _ => .error .typeError

/-- Top-level keys of a JSON object (empty for non-objects). -/
def jkeys : Json → List String
  | .obj fields => fields.map (fun f => f.1)
  | _ => []

/-- One Redis `SET key value EX ttl` performed by the status store
(`ComfyUIRedisClient.set_task_status`). -/
structure StoreWrite where
  key : String
  value : Json
  ttlSeconds : Nat

/-- One Redis `SET key bytes EX ttl` performed by the binary image cache
(`ComfyUIRedisClient.cache_image_result`). -/
structure BytesWrite where
  key : String
  bytes : List Nat
  ttlSeconds : Nat
deriving DecidableEq

/-- Embedding of `ComfyUIRedisClient.set_task_status`: the record is stored
under `comfyui:task:{prompt_id}` as the JSON object
`{"status": ..., "updated_at": ..., "data": ...}` with a 24-hour expiry.
`now` stands for `datetime.now().isoformat()`. -/
def set_task_status (prompt_id status : String) (data : Option Json) (now : String) :
    StoreWrite :=
  { key := "comfyui:task:" ++ prompt_id
  , value := .obj
      [("status", .str status), ("updated_at", .str now), ("data", data.getD .null)]
  , ttlSeconds := 24 * 60 * 60 }

/-- Embedding of `ComfyUIRedisClient.cache_image_result`: raw bytes stored
under `comfyui:image:{prompt_id}:{node_id}` with a 1-hour expiry. -/
def cache_image_result (prompt_id node_id : String) (image_data : List Nat) :
    BytesWrite :=
  { key := "comfyui:image:" ++ prompt_id ++ ":" ++ node_id
  , bytes := image_data
  , ttlSeconds := 60 * 60 }

/-- Embedding of `ComfyUIRedisClient.get_task_status`: read and parse the
record stored under `comfyui:task:{prompt_id}`.  The store itself is an
oracle from full Redis keys to parsed JSON values. -/
def get_task_status (store : String → Option Json) (prompt_id : String) : Option Json :=
  store ("comfyui:task:" ++ prompt_id)

/-- Binary blobs downloaded from a worker (`get_image` responses). -/
abbrev Bytes := List Nat

/-- A Redis write performed by `get_result` through `set_task_status`:
the status string and the optional `data` payload. -/
abbrev GRWrite := String × Option Json

/-- Value component of what `get_result` returns on the SUCCESS paths:
either the cached value read back from the status store, or the freshly
assembled per-node image mapping. -/
inductive GRVal where
  | cached (refs : Json)
  | images (imgs : List (String × List Bytes))

/-- Return value of `get_result`: `(output_images_or_None, status_string)`. -/
abbrev GRRet := Option GRVal × String

/-- Outcome of the cache check at the top of `get_result`
(`if task_status and task_status["status"] == "COMPLETED": return
task_status["image_paths"], "SUCCESS"`). -/
inductive PreCheck where
  | proceed
  | raised (e : PyErr)
  | returnCached (refs : Json)

/-- Embedding of the code of `get_result` before the polling loop. -/
def resultPreCheck (store : String → Option Json) (prompt_id : String) : PreCheck :=
  match get_task_status store prompt_id with
  | none => .proceed
  | some ts =>
    if jtruthy ts then
      match jindex ts "status" with
      | .error e => .raised e
      | .ok v =>
        match v with
        | .str s =>
          if s = "COMPLETED" then
            match jindex ts "image_paths" with
            | .error e => .raised e
            | .ok refs => .returnCached refs
          else .proceed
        | _ => .proceed
    else .proceed

/-- The `(node_id, image_descriptor)` download tasks created from one
node output (`if "images" in node_output: for image in node_output["images"]`). -/
def nodeImageTasks (node_id : String) (node_output : Json) :
    Except PyErr (List (String × Json)) := do
  let has ← jhasKey node_output "images"
  if has then
    let imgsVal ← jindex node_output "images"
    match imgsVal with
    | .arr imgs => pure (imgs.map (fun im => (node_id, im)))
    | _ => .error .typeError
  else
    pure []

/-- All download tasks collected across the `outputs` nodes, in
`outputs.items()` order. -/
def collectTasks : List (String × Json) → Except PyErr (List (String × Json))
  | [] => .ok []
  | (nid, nout) :: rest => do
    let ts ← nodeImageTasks nid nout
    let more ← collectTasks rest
    pure (ts ++ more)

/-- Grouping of a downloaded blob into `output_images`
(`if node_id in output_images: append else [image_output]`). -/
def addImage : List (String × List Bytes) → String → Bytes → List (String × List Bytes)
  | [], nid, b => [(nid, [b])]
  | (k, bs) :: rest, nid, b =>
    if k = nid then (k, bs ++ [b]) :: rest
    else (k, bs) :: addImage rest nid b

/-- One iteration of the `try:` body of `get_result`'s polling loop.
`fetch` is the `get_image` oracle and `histResp` the `get_history`
response for this attempt.  `ok none` is the poll-again outcome
(no `outputs` yet, or no images assembled); `ok (some imgs)` is the
success outcome; `error e` is a raised exception, to be handled by the
`except` clause. -/
def attemptBody (fetch : Json → Except PyErr Bytes) (histResp : Except PyErr Json)
    (prompt_id : String) : Except PyErr (Option (List (String × List Bytes))) := do
  let historyAll ← histResp
  let history ← jindex historyAll prompt_id
  let hasOutputs ← jhasKey history "outputs"
  if !hasOutputs then
    pure none
  else
    let outputs ← jindex history "outputs"
    let nodes ← (match outputs with
      | .obj nodes => .ok nodes
      | _ => .error .typeError)
    let tasks ← collectTasks nodes
    let imgs ← tasks.foldlM (fun acc t => do
      let b ← fetch t.2
      pure (addImage acc t.1 b)) []
    if imgs.isEmpty then pure none else pure (some imgs)

/-- Embedding of `get_result`'s `for attempt in range(max_retries)` loop,
by recursion on the number of remaining attempts.  Returns the list of
status-store writes performed, the number of `get_history` calls issued,
and the returned `(value, status)` pair.  Falling out of the loop writes
`TIMEOUT`; an exception on the last attempt writes `FAILED` with the
error message; assembled outputs write `COMPLETED` with
`{"image_paths": []}`. -/
def pollLoop (fetch : Json → Except PyErr Bytes) (hist : Nat → Except PyErr Json)
    (prompt_id : String) (maxRetries : Nat) :
    Nat → List GRWrite × Nat × GRRet
  | 0 => ([("TIMEOUT", none)], 0, (none, "TIMEOUT"))
  | r + 1 =>
    match attemptBody fetch (hist (maxRetries - (r + 1))) prompt_id with
    | .ok (some imgs) =>
      ([("COMPLETED", some (Json.obj [("image_paths", Json.arr [])]))], 1,
        (some (.images imgs), "SUCCESS"))
    | .ok none =>
      let rest := pollLoop fetch hist prompt_id maxRetries r
      (rest.1, rest.2.1 + 1, rest.2.2)
    | .error e =>
      if r = 0 then
        ([("FAILED", some (Json.obj [("error", Json.str (errMsg e))]))], 1,
          (none, "FAILED"))
      else
        let rest := pollLoop fetch hist prompt_id maxRetries r
        (rest.1, rest.2.1 + 1, rest.2.2)

/-- Embedding of `TaskDispatcher.get_result`.  The result is the list of
status-store writes, the number of history polls issued to the worker,
and either the returned `(value, status)` pair or an uncaught exception. -/
def get_result (store : String → Option Json) (fetch : Json → Except PyErr Bytes)
    (hist : Nat → Except PyErr Json) (prompt_id : String) (maxRetries : Nat) :
    List GRWrite × Nat × Except PyErr GRRet :=
  match resultPreCheck store prompt_id with
  | .raised e => ([], 0, .error e)
  | .returnCached refs => ([], 0, .ok (some (.cached refs), "SUCCESS"))
  | .proceed =>
    let res := pollLoop fetch hist prompt_id maxRetries maxRetries
    (res.1, res.2.1, .ok res.2.2)

/-- Increment `generation_times[i]` (`generation_times[indices[i]] += 1`). -/
def bumpAt (ts : List Nat) (i : Nat) : List Nat :=
  ts.set i (ts.getD i 0 + 1)

/-- Embedding of the per-style-folder repeat planner in
`BatchProcessor.process_folder` (service.py lines 385-412): start every
image at `min_per_image`, and when `remaining = target - n*min` is
positive add `remaining // n` to every image and one extra unit to the
first `remaining % n` positions of the shuffled index list.
`shuffled` stands for the result of `random.shuffle(list(range(n)))`.
The source computes `max_additional = max_per_image - min_per_image` but
never uses it, so no `max_per_image` argument appears in the data flow. -/
def planGenerationTimes (generations_per_style min_per_image : Nat)
    (image_count : Nat) (shuffled : List Nat) : List Nat :=
  let times := List.replicate image_count min_per_image
  let remaining := generations_per_style - min_per_image * image_count
  if 0 < remaining then
    let base := remaining / image_count
    let extra := remaining % image_count
    (shuffled.take extra).foldl bumpAt (times.map (fun t => t + base))
  else times

/-- One pass of `asyncio.wait(active_tasks, FIRST_COMPLETED)` inside the
`while len(active_tasks) >= batch_size` loop of `process_folder`: as long
as the active count is at least `b`, at least one and at most all of the
active tasks complete and are discarded.  `oracle t` says how many tasks
the event loop completes at wait event `t` (clamped to `[1, active]`).
The returned list records the active count after every wait event. -/
def waitDrain (b : Nat) (oracle : Nat → Nat) : Nat → Nat → Nat → List Nat × Nat × Nat
  | 0, active, t => ([], active, t)
  | fuel + 1, active, t =>
    if b ≤ active then
      let d := min active (max 1 (oracle t))
      let a2 := active - d
      let rest := waitDrain b oracle fuel a2 (t + 1)
      (a2 :: rest.1, rest.2)
    else ([], active, t)

/-- The `for task_idx, ... in enumerate(task_queue)` admission loop of
`process_folder`: each planned entry creates one task (active count +1),
then the inner while-loop drains until the active count is below
`batch_size`.  Returns the active counts observed after every admission
and after every wait event, plus the final active count and wait clock. -/
def admitLoop (b : Nat) (oracle : Nat → Nat) : Nat → Nat → Nat → List Nat × Nat × Nat
  | 0, active, t => ([], active, t)
  | k + 1, active, t =>
    let a1 := active + 1
    let afterWait := waitDrain b oracle a1 a1 t
    let rest := admitLoop b oracle k afterWait.2.1 afterWait.2.2
    (a1 :: afterWait.1 ++ rest.1, rest.2)

/-- The in-flight counts observed while driving a plan of `k` entries
with `batch_size = b` through the batch loop, starting from an empty
active-task set. -/
def inflightTrace (b k : Nat) (oracle : Nat → Nat) : List Nat :=
  (admitLoop b oracle k 0 0).1

/-- Embedding of `TaskDispatcher.get_next_server`: the `i`-th call to
`next(self.server_cycle)` where the cycle was built by
`cycle(list(self.available_servers))`.  Servers are identified by URL. -/
def cycleNext (servers : List String) (i : Nat) : Option String :=
  servers.get? (i % servers.length)

/-- Embedding of `TaskDispatcher._check_server_status` with response
oracle `resp` (attempt number to HTTP outcome: status code or raised
exception).  Mirrors the source exactly: a 200 response returns `true`;
any other status code returns `false` immediately; an exception retries
(after a 1 s sleep) only while attempts remain, else returns `false`.
Returns the decision together with the number of attempts performed. -/
def checkServerAux (resp : Nat → Except String Nat) : Nat → Nat → Bool × Nat
  | attempt, 0 => (false, attempt)
  | attempt, r + 1 =>
    match resp attempt with
    | .ok code => if code = 200 then (true, attempt + 1) else (false, attempt + 1)
    | .error _ =>
      if 0 < r then checkServerAux resp (attempt + 1) r
      else (false, attempt + 1)

/-- `_check_server_status` at its call site in `_initialize`: the default
`max_retries = 3` is used.  `true` means the server joins
`available_servers`; `false` means it is excluded. -/
def check_server_status (resp : Nat → Except String Nat) : Bool × Nat :=
  checkServerAux resp 0 3

/-- Embedding of `TaskDispatcher.process_task`: submit, poll, then save,
with the whole body wrapped in `try: ... except: return []`.  `submit`
is the outcome of `queue_prompt` (a prompt id or a raised exception),
`poll prompt_id` the outcome of `get_result` (same shape as the
`get_result` embedding above), and `save` the outcome of `save_images`. -/
def process_task (submit : Except PyErr String)
    (poll : String → List GRWrite × Nat × Except PyErr GRRet)
    (save : Option GRVal → Except PyErr (List (List Char))) : List (List Char) :=
  match submit with
  | .error _ => []
  | .ok prompt_id =>
    match (poll prompt_id).2.2 with
    | .error _ => []
    | .ok ret =>
      if ret.2 = "SUCCESS" then
        match save ret.1 with
        | .error _ => []
        | .ok paths => paths
      else []

/-- The characters of the `".jpg"` literal used by `save_images`. -/
def jpgExt : List Char := ['.', 'j', 'p', 'g']

/-- Embedding of the filename computation in `save_images`
(strings are modelled as `List Char`, `str.endswith` as list suffix):
`filename = output_filename or f"{timestamp}_{node_id}_{idx}_{uuid8}.jpg"`,
then `if not filename.endswith(".jpg"): filename += uuid4().hex + ".jpg"`.
Python `or` falls through to the generated default on an empty string. -/
def makeOutputFilename (output_filename : Option (List Char))
    (timestamp node_id : List Char) (idx : Nat) (uuid8 hexstr : List Char) : List Char :=
  let defaultName :=
    timestamp ++ ['_'] ++ node_id ++ ['_'] ++ (toString idx).toList ++ ['_'] ++ uuid8 ++ jpgExt
  let filename :=
    match output_filename with
    | some f => if f.isEmpty then defaultName else f
    | none => defaultName
  if jpgExt <:+ filename then filename else filename ++ hexstr ++ jpgExt

/-- Embedding of `TaskDispatcher.save_images`: for every node and every
image index, one file path `output_path / filename` is produced (the
bytes written to it are irrelevant to the path).  `names nid idx` is the
oracle for `(timestamp, uuid4()[:8], uuid4().hex)` at that iteration. -/
def save_images (images : List (String × List Bytes)) (out_dir : List Char)
    (output_filename : Option (List Char))
    (names : String → Nat → List Char × List Char × List Char) : List (List Char) :=
  if images.isEmpty then []
  else images.flatMap (fun node =>
    (List.range node.2.length).map (fun idx =>
      let nm := names node.1 idx
      out_dir ++ ['/'] ++
        makeOutputFilename output_filename nm.1 node.1.toList idx nm.2.1 nm.2.2))

/-- C1: the planner in `process_folder` violates the claimed cap.  At the
concrete input `n = 1` image, `min_per_image = 1`, `max_per_image = 2`,
`target = 5` (which satisfies the claim's premises `n ≥ 1`,
`target ≥ n*min`, `max ≥ min ≥ 0`), the code assigns the single image 5
repeats: the counts sum to 5, not `min(target, n*max) = 2`, and the
single count exceeds `max_per_image`.  The source computes
`max_additional = max_per_image - min_per_image` but never applies it. -/
theorem planner_ignores_max_cap :
    (1 ≤ 1 ∧ 1 * 1 ≤ 5 ∧ 1 ≤ 2) ∧
    planGenerationTimes 5 1 1 [0] = [5] ∧
    (planGenerationTimes 5 1 1 [0]).sum ≠ min 5 (1 * 2) ∧
    ¬ (∀ t ∈ planGenerationTimes 5 1 1 [0], t ≤ 2) := by
  decide

/-- C7 counterexample: the status record is not stored under
`task:{job_id}` and the binary cache is not stored under
`image:{job_id}:{node_id}`; both keys carry a `comfyui:` namespace
in the source. -/
theorem store_keys_are_not_unprefixed :
    (set_task_status "job-1" "PENDING" none "2026-01-01T00:00:00").key ≠ "task:job-1" ∧
    (cache_image_result "job-1" "9" []).key ≠ "image:job-1:9" := by
  decide

/-- C7 (amended): every status record is stored under
`comfyui:task:{job_id}` as JSON with exactly the top-level fields
`status`, `updated_at` and `data` (holding the given values) and a
24-hour TTL, and every cached binary payload is stored under
`comfyui:image:{job_id}:{node_id}` with a 1-hour TTL. -/
theorem store_key_layout_and_ttl (prompt_id status now : String) (data : Option Json)
    (node_id : String) (image_data : List Nat) :
    (set_task_status prompt_id status data now).key = "comfyui:task:" ++ prompt_id ∧
    jkeys (set_task_status prompt_id status data now).value
      = ["status", "updated_at", "data"] ∧
    jindex (set_task_status prompt_id status data now).value "status"
      = .ok (.str status) ∧
    jindex (set_task_status prompt_id status data now).value "updated_at"
      = .ok (.str now) ∧
    jindex (set_task_status prompt_id status data now).value "data"
      = .ok (data.getD .null) ∧
    (set_task_status prompt_id status data now).ttlSeconds = 24 * 60 * 60 ∧
    (cache_image_result prompt_id node_id image_data).key
      = "comfyui:image:" ++ prompt_id ++ ":" ++ node_id ∧
    (cache_image_result prompt_id node_id image_data).ttlSeconds = 60 * 60 :=
  ⟨rfl, rfl, rfl, rfl, rfl, rfl, rfl, rfl⟩

/-- The status-store entry of a job that `set_task_status` marked
`COMPLETED` with its `{"image_paths": []}` payload. -/
def completedStoredValue : Json :=
  (set_task_status "job-1" "COMPLETED" (some (Json.obj [("image_paths", Json.arr [])]))
    "2026-01-01T00:00:00").value

/-- A status store holding exactly the entry above for job `job-1`. -/
def storeWithCompleted : String → Option Json :=
  fun k => if k = "comfyui:task:job-1" then some completedStoredValue else none

/-- C2: on a cached `COMPLETED` entry — of exactly the shape the system
itself writes — `get_result` raises `KeyError("image_paths")` instead of
returning `SUCCESS` with the cached output references: the stored record
has only the top-level keys `status`, `updated_at` and `data`, but the
code reads `task_status["image_paths"]`.  No history poll is issued
(poll count 0) and no write is performed. -/
theorem get_result_cached_completed_raises_keyerror :
    get_result storeWithCompleted (fun _ => .ok []) (fun _ => .error (.httpError "down"))
      "job-1" 60 = ([], 0, .error (.keyError "image_paths")) :=
  rfl

/-- A raised `get_history` propagates out of the attempt body. -/
theorem attemptBody_error (fetch : Json → Except PyErr Bytes) (e : PyErr)
    (prompt_id : String) : attemptBody fetch (.error e) prompt_id = .error e :=
  rfl

/-- When every history call raises, the polling loop runs all `r`
remaining attempts, writes a single `FAILED` record carrying the message
of the error of the last attempt, and returns `(None, "FAILED")`. -/
theorem pollLoop_all_errors (fetch : Json → Except PyErr Bytes) (errs : Nat → PyErr)
    (prompt_id : String) (maxR : Nat) (r : Nat) (hr : 1 ≤ r) :
    pollLoop fetch (fun n => .error (errs n)) prompt_id maxR r =
      ([("FAILED", some (Json.obj [("error", Json.str (errMsg (errs (maxR - 1))))]))], r,
        (none, "FAILED")) := by
  induction r with
  | zero => exact absurd hr (by decide)
  | succ r ih =>
    rcases Nat.eq_zero_or_pos r with h0 | hpos
    · subst h0
      simp [pollLoop, attemptBody_error]
    · have hne : r ≠ 0 := Nat.pos_iff_ne_zero.mp hpos
      simp [pollLoop, attemptBody_error, hne, ih hpos]

/-- C3: if every history call for a job raises, `get_result` performs
exactly `max_retries` history polls, returns `FAILED`, and its only
status-store write is a `FAILED` entry whose data holds the message of
the last error.  The hypothesis says the cache check falls through to
the polling loop (as it does for any job in the normal `PENDING` state). -/
theorem get_result_retry_exhaustion_failed (store : String → Option Json)
    (fetch : Json → Except PyErr Bytes) (errs : Nat → PyErr) (prompt_id : String)
    (maxR : Nat) (hpre : resultPreCheck store prompt_id = .proceed) (hmax : 1 ≤ maxR) :
    get_result store fetch (fun n => .error (errs n)) prompt_id maxR =
      ([("FAILED", some (Json.obj [("error", Json.str (errMsg (errs (maxR - 1))))]))], maxR,
        .ok (none, "FAILED")) := by
  simp [get_result, hpre, pollLoop_all_errors fetch errs prompt_id maxR maxR hmax]

/-- Witness for C3 at the default `max_retries = 60`, an empty status
store and an always-throwing history call. -/
theorem get_result_retry_exhaustion_failed_witness :
    get_result (fun _ => none) (fun _ => .ok []) (fun _ => .error (.httpError "boom"))
      "p" 60 =
      ([("FAILED", some (Json.obj [("error", Json.str "boom")]))], 60,
        .ok (none, "FAILED")) :=
  get_result_retry_exhaustion_failed (fun _ => none) (fun _ => .ok [])
    (fun _ => .httpError "boom") "p" 60 rfl (by decide)

/-- Every write issued by the polling loop is `TIMEOUT` (no data),
`FAILED` (error data) or `COMPLETED` with the constant
`{"image_paths": []}` payload. -/
theorem pollLoop_completed_write (fetch : Json → Except PyErr Bytes)
    (hist : Nat → Except PyErr Json) (prompt_id : String) (maxR : Nat) :
    ∀ r w, w ∈ (pollLoop fetch hist prompt_id maxR r).1 → w.1 = "COMPLETED" →
      w.2 = some (Json.obj [("image_paths", Json.arr [])]) := by
  intro r
  induction r with
  | zero =>
    intro w hw hC
    simp [pollLoop] at hw
    rw [hw] at hC
    exact absurd hC (by decide)
  | succ r ih =>
    intro w hw hC
    rw [pollLoop] at hw
    cases hAB : attemptBody fetch (hist (maxR - (r + 1))) prompt_id with
    | error e =>
      rw [hAB] at hw
      by_cases hr : r = 0
      · simp [hr] at hw
        rw [hw] at hC
        simp at hC
      · simp [hr] at hw
        exact ih w hw hC
    | ok ov =>
      cases ov with
      | none =>
        rw [hAB] at hw
        simp at hw
        exact ih w hw hC
      | some imgs =>
        rw [hAB] at hw
        simp at hw
        rw [hw]

/-- C8: whenever `get_result` marks a job `COMPLETED` in the status
store, the data it writes is the constant `{"image_paths": []}`, so the
store never receives the job's actual output references. -/
theorem completed_write_data_constant (store : String → Option Json)
    (fetch : Json → Except PyErr Bytes) (hist : Nat → Except PyErr Json)
    (prompt_id : String) (maxR : Nat) (w : GRWrite)
    (hw : w ∈ (get_result store fetch hist prompt_id maxR).1) (hC : w.1 = "COMPLETED") :
    w.2 = some (Json.obj [("image_paths", Json.arr [])]) := by
  unfold get_result at hw
  cases hpc : resultPreCheck store prompt_id with
  | raised e => rw [hpc] at hw; simp at hw
  | returnCached refs => rw [hpc] at hw; simp at hw
  | proceed =>
    rw [hpc] at hw
    simp only [] at hw
    exact pollLoop_completed_write fetch hist prompt_id maxR maxR w hw hC

/-- Status store, image fetcher and history oracle for a job that
succeeds on the first poll with one image from node `9`. -/
def demoStore : String → Option Json := fun _ => none

/-- History oracle whose first response already carries outputs. -/
def demoHist : Nat → Except PyErr Json := fun _ =>
  .ok (.obj [("p", .obj [("outputs", .obj [("9", .obj [("images", .arr [.null])])])])])

/-- Image fetcher returning a one-byte blob. -/
def demoFetch : Json → Except PyErr Bytes := fun _ => .ok [7]

/-- Witness for C8: the successful run above performs exactly the
`COMPLETED` write with the constant payload. -/
theorem completed_write_data_constant_witness :
    (("COMPLETED", some (Json.obj [("image_paths", Json.arr [])])) : GRWrite).2
      = some (Json.obj [("image_paths", Json.arr [])]) :=
  completed_write_data_constant demoStore demoFetch demoHist "p" 1
    ("COMPLETED", some (Json.obj [("image_paths", Json.arr [])]))
    (by
      have h : (get_result demoStore demoFetch demoHist "p" 1).1
          = [("COMPLETED", some (Json.obj [("image_paths", Json.arr [])]))] := rfl
      rw [h]
      exact List.Mem.head _)
    rfl

/-- C9: `process_task` never propagates an exception.  A submit failure,
a raised poll, any non-`SUCCESS` poll status and a failing save all
return the empty list — which is also exactly what a successful job
whose save produced zero paths returns, so the caller cannot tell these
cases apart. -/
theorem process_task_returns_empty_on_failures
    (poll : String → List GRWrite × Nat × Except PyErr GRRet)
    (save : Option GRVal → Except PyErr (List (List Char)))
    (e : PyErr) (prompt_id : String) (imgs : Option GRVal) (st : String) :
    process_task (.error e) poll save = [] ∧
    ((poll prompt_id).2.2 = .error e → process_task (.ok prompt_id) poll save = []) ∧
    ((poll prompt_id).2.2 = .ok (imgs, st) → st ≠ "SUCCESS" →
      process_task (.ok prompt_id) poll save = []) ∧
    ((poll prompt_id).2.2 = .ok (imgs, "SUCCESS") → save imgs = .error e →
      process_task (.ok prompt_id) poll save = []) ∧
    ((poll prompt_id).2.2 = .ok (imgs, "SUCCESS") → save imgs = .ok [] →
      process_task (.ok prompt_id) poll save = []) := by
  refine ⟨rfl, ?_, ?_, ?_, ?_⟩
  · intro h1
    simp [process_task, h1]
  · intro h1 h2
    simp [process_task, h1, h2]
  · intro h1 h2
    simp [process_task, h1, h2]
  · intro h1 h2
    simp [process_task, h1, h2]

/-- Poll oracle that reports a `TIMEOUT` for every job. -/
def timeoutPoll : String → List GRWrite × Nat × Except PyErr GRRet :=
  fun _ => ([("TIMEOUT", none)], 60, .ok (none, "TIMEOUT"))

/-- Save oracle that succeeds with no paths. -/
def emptySave : Option GRVal → Except PyErr (List (List Char)) :=
  fun _ => .ok []

/-- Witness for C9: a timed-out job yields the empty list. -/
theorem process_task_returns_empty_on_failures_witness :
    process_task (.ok "p") timeoutPoll emptySave = [] :=
  (process_task_returns_empty_on_failures timeoutPoll emptySave .typeError "p" none
    "TIMEOUT").2.2.1 rfl (by decide)

/-- Appending the `.jpg` extension when it is missing always leaves a
name that ends in `.jpg`. -/
theorem jpg_branch (f h : List Char) :
    jpgExt <:+ (if jpgExt <:+ f then f else f ++ h ++ jpgExt) := by
  split
  · next hf => exact hf
  · exact List.suffix_append _ _

/-- Every filename produced by `save_images` ends in `.jpg`. -/
theorem jpg_suffix_makeOutputFilename (output_filename : Option (List Char))
    (timestamp node_id : List Char) (idx : Nat) (uuid8 hexstr : List Char) :
    jpgExt <:+ makeOutputFilename output_filename timestamp node_id idx uuid8 hexstr :=
  jpg_branch _ _

/-- C10: every path returned by `save_images` names a file ending in
`.jpg`: the generated default ends in `.jpg`, and a caller-supplied name
without the extension gets a hex string and `.jpg` appended. -/
theorem save_images_paths_end_jpg (images : List (String × List Bytes))
    (out_dir : List Char) (output_filename : Option (List Char))
    (names : String → Nat → List Char × List Char × List Char)
    (p : List Char) (hp : p ∈ save_images images out_dir output_filename names) :
    jpgExt <:+ p := by
  unfold save_images at hp
  split at hp
  · simp at hp
  · simp only [List.mem_flatMap, List.mem_map, List.mem_range] at hp
    obtain ⟨node, hnode, idx, hidx, hpath⟩ := hp
    rw [← hpath]
    exact (jpg_suffix_makeOutputFilename _ _ _ _ _ _).trans (List.suffix_append _ _)

/-- Witness for C10 on a one-node, one-image output set with fresh names
chosen empty. -/
theorem save_images_paths_end_jpg_witness :
    jpgExt <:+ ['o'] ++ ['/'] ++ makeOutputFilename none [] "9".toList 0 [] [] :=
  save_images_paths_end_jpg [("9", [[0]])] ['o'] none (fun _ _ => ([], [], []))
    (['o'] ++ ['/'] ++ makeOutputFilename none [] "9".toList 0 [] [])
    (by
      have h : save_images [("9", [[0]])] ['o'] none (fun _ _ => ([], [], []))
          = [['o'] ++ ['/'] ++ makeOutputFilename none [] "9".toList 0 [] []] := rfl
      rw [h]
      exact List.Mem.head _)

/-- The inner while-loop leaves the active count strictly below the
batch size, and every count it passes through is strictly below the
count it started from. -/
theorem waitDrain_spec (b : Nat) (oracle : Nat → Nat) (hb : 1 ≤ b) :
    ∀ fuel active t, active ≤ fuel →
      (waitDrain b oracle fuel active t).2.1 < b ∧
      ∀ x ∈ (waitDrain b oracle fuel active t).1, x < active := by
  intro fuel
  induction fuel with
  | zero =>
    intro active t hle
    have h0 : active = 0 := Nat.le_zero.mp hle
    subst h0
    exact ⟨hb, by simp [waitDrain]⟩
  | succ fuel ih =>
    intro active t hle
    by_cases hba : b ≤ active
    · have hact : 1 ≤ active := le_trans hb hba
      have hd : 1 ≤ min active (max 1 (oracle t)) :=
        le_min hact (le_max_left 1 (oracle t))
      have ha2 : active - min active (max 1 (oracle t)) < active :=
        Nat.sub_lt hact hd
      have ha2f : active - min active (max 1 (oracle t)) ≤ fuel :=
        Nat.le_of_lt_succ (lt_of_lt_of_le ha2 hle)
      have hrec := ih (active - min active (max 1 (oracle t))) (t + 1) ha2f
      constructor
      · simp only [waitDrain, if_pos hba]
        exact hrec.1
      · intro x hx
        simp only [waitDrain, if_pos hba, List.mem_cons] at hx
        rcases hx with hx | hx
        · rw [hx]; exact ha2
        · exact lt_trans (hrec.2 x hx) ha2
    · constructor
      · simp only [waitDrain, if_neg hba]
        exact Nat.lt_of_not_le hba
      · intro x hx
        simp only [waitDrain, if_neg hba] at hx
        exact absurd hx (List.not_mem_nil x)

/-- Starting below the batch size, the admission loop keeps every
observed in-flight count at or below the batch size and ends below it. -/
theorem admitLoop_spec (b : Nat) (oracle : Nat → Nat) (hb : 1 ≤ b) :
    ∀ k active t, active < b →
      (admitLoop b oracle k active t).2.1 < b ∧
      ∀ x ∈ (admitLoop b oracle k active t).1, x ≤ b := by
  intro k
  induction k with
  | zero =>
    intro active t hab
    exact ⟨hab, by simp [admitLoop]⟩
  | succ k ih =>
    intro active t hab
    have ha1 : active + 1 ≤ b := hab
    have hwd := waitDrain_spec b oracle hb (active + 1) (active + 1) t (le_refl _)
    have hrec := ih (waitDrain b oracle (active + 1) (active + 1) t).2.1
      (waitDrain b oracle (active + 1) (active + 1) t).2.2 hwd.1
    constructor
    · exact hrec.1
    · intro x hx
      have hm : x ∈ (active + 1) ::
          ((waitDrain b oracle (active + 1) (active + 1) t).1 ++
            (admitLoop b oracle k (waitDrain b oracle (active + 1) (active + 1) t).2.1
              (waitDrain b oracle (active + 1) (active + 1) t).2.2).1) := hx
      rcases List.mem_cons.mp hm with h | h
      · rw [h]; exact ha1
      · rcases List.mem_append.mp h with h | h
        · exact le_trans (le_of_lt (hwd.2 x h)) ha1
        · exact hrec.2 x h

/-- C4: driving a plan of `k` entries through the batch loop of
`process_folder` with `batch_size = b ≥ 1` never lets the in-flight
count exceed `b`, for any schedule of task completions: every entry in
the observed in-flight trace is at most `b` (a new entry is admitted
only after the previous iteration drained the active set below `b`). -/
theorem batch_loop_inflight_bounded (b k : Nat) (oracle : Nat → Nat) (hb : 1 ≤ b) :
    ∀ x ∈ inflightTrace b k oracle, x ≤ b :=
  fun x hx => (admitLoop_spec b oracle hb k 0 0 hb).2 x hx

/-- Witness for C4: five entries through batch size 2 with one
completion per wait event; the bound 2 is reached but never exceeded. -/
theorem batch_loop_inflight_bounded_witness :
    1 ≤ 2 ∧ 2 ∈ inflightTrace 2 5 (fun _ => 1) ∧ 2 ≤ 2 :=
  ⟨by decide, by decide,
    batch_loop_inflight_bounded 2 5 (fun _ => 1) (by decide) 2 (by decide)⟩

/-- Indexing a list with every position in order reproduces the list. -/
theorem range_map_get (l : List String) :
    (List.range l.length).map (fun i => l.get? i) = l.map some := by
  induction l with
  | nil => rfl
  | cons a t ih =>
    rw [List.length_cons, List.range_succ_eq_map, List.map_cons, List.map_map]
    show some a :: (List.range t.length).map (fun i => t.get? i) = some a :: t.map some
    rw [ih]

/-- C5: starting at any cycle boundary `q * h` (where `h` is the size of
the healthy set), `h` consecutive `get_next_server` calls return the
healthy endpoints in cycle order — the whole healthy list, each endpoint
exactly once when the endpoints are distinct (as they are, coming from a
set keyed by URL). -/
theorem round_robin_fairness (servers : List String) (hne : servers ≠ []) (q : Nat) :
    ((List.range servers.length).map
        (fun i => cycleNext servers (q * servers.length + i))) = servers.map some ∧
    (servers.Nodup →
      ((List.range servers.length).map
          (fun i => cycleNext servers (q * servers.length + i))).Nodup) := by
  have hmain : ((List.range servers.length).map
      (fun i => cycleNext servers (q * servers.length + i))) = servers.map some := by
    have h1 : ∀ i ∈ List.range servers.length,
        cycleNext servers (q * servers.length + i) = servers.get? i := by
      intro i hi
      have hlt : i < servers.length := List.mem_range.mp hi
      unfold cycleNext
      rw [Nat.add_comm, Nat.add_mul_mod_self_right, Nat.mod_eq_of_lt hlt]
    rw [List.map_congr_left h1]
    exact range_map_get servers
  refine ⟨hmain, fun hnd => ?_⟩
  rw [hmain]
  exact hnd.map (Option.some_injective String)

/-- Witness for C5: a two-endpoint healthy set, third cycle. -/
theorem round_robin_fairness_witness :
    ((List.range (["a", "b"] : List String).length).map
        (fun i => cycleNext ["a", "b"] (3 * (["a", "b"] : List String).length + i))).Nodup :=
  (round_robin_fairness ["a", "b"] (by decide) 3).2 (by decide)

/-- Attempt accounting of `_check_server_status`: starting at attempt
index `a` with `rem` attempts remaining, between 1 and `rem` further
attempts happen (provided `rem ≥ 1`); a `false` verdict means no
performed attempt returned HTTP 200, and a `true` verdict means the last
performed attempt returned HTTP 200. -/
theorem checkServerAux_spec (resp : Nat → Except String Nat) :
    ∀ rem a, 1 ≤ rem →
      a + 1 ≤ (checkServerAux resp a rem).2 ∧
      (checkServerAux resp a rem).2 ≤ a + rem ∧
      ((checkServerAux resp a rem).1 = false →
        ∀ i, a ≤ i → i < (checkServerAux resp a rem).2 → resp i ≠ .ok 200) ∧
      ((checkServerAux resp a rem).1 = true →
        resp ((checkServerAux resp a rem).2 - 1) = .ok 200) := by
  intro rem
  induction rem with
  | zero => intro a h; exact absurd h (by decide)
  | succ r ih =>
    intro a _
    cases hres : resp a with
    | ok code =>
      by_cases h200 : code = 200
      · subst h200
        have hcs : checkServerAux resp a (r + 1) = (true, a + 1) := by
          simp [checkServerAux, hres]
        rw [hcs]
        refine ⟨le_refl _, by show a + 1 ≤ a + (r + 1); omega, ?_, ?_⟩
        · intro hfalse
          exact absurd hfalse (by simp)
        · intro _
          exact hres
      · have hcs : checkServerAux resp a (r + 1) = (false, a + 1) := by
          simp [checkServerAux, hres, h200]
        rw [hcs]
        refine ⟨le_refl _, by show a + 1 ≤ a + (r + 1); omega, ?_, ?_⟩
        · intro _ i hai hia
          have hia2 : i < a + 1 := hia
          have hieq : i = a := by omega
          subst hieq
          rw [hres]
          intro hcontra
          exact h200 (by injection hcontra)
        · intro htrue
          exact absurd htrue (by simp)
    | error msg =>
      by_cases hr : 0 < r
      · obtain ⟨hr1, hr2, hr3, hr4⟩ := ih (a + 1) hr
        have hcs : checkServerAux resp a (r + 1) = checkServerAux resp (a + 1) r := by
          simp [checkServerAux, hres, hr]
        rw [hcs]
        refine ⟨by omega, by omega, ?_, hr4⟩
        intro hfalse i hai hia
        by_cases hieq : i = a
        · subst hieq
          rw [hres]
          intro hcontra
          exact Except.noConfusion hcontra
        · exact hr3 hfalse i (by omega) hia
      · have hr0 : r = 0 := by omega
        subst hr0
        have hcs : checkServerAux resp a 1 = (false, a + 1) := by
          simp [checkServerAux, hres]
        rw [hcs]
        refine ⟨le_refl _, by show a + 1 ≤ a + 1; omega, ?_, ?_⟩
        · intro _ i hai hia
          have hia2 : i < a + 1 := hia
          have hieq : i = a := by omega
          subst hieq
          rw [hres]
          intro hcontra
          exact Except.noConfusion hcontra
        · intro htrue
          exact absurd htrue (by simp)

/-- C6: `_check_server_status` performs between 1 and 3 health-check
attempts, and the endpoint is excluded (verdict `false`) only if none of
the attempts it performed obtained an HTTP 200 response; dually, an
included endpoint got a 200 on its last attempt. -/
theorem check_server_excluded_only_if_no_200 (resp : Nat → Except String Nat) :
    1 ≤ (check_server_status resp).2 ∧ (check_server_status resp).2 ≤ 3 ∧
    ((check_server_status resp).1 = false →
      ∀ i, i < (check_server_status resp).2 → resp i ≠ .ok 200) ∧
    ((check_server_status resp).1 = true →
      resp ((check_server_status resp).2 - 1) = .ok 200) := by
  have h := checkServerAux_spec resp 3 0 (by decide)
  exact ⟨h.1, h.2.1, fun hf i hi => h.2.2.1 hf i (Nat.zero_le i) hi, h.2.2.2⟩

/-- Response oracle of an endpoint that never answers. -/
def unreachableResp : Nat → Except String Nat := fun _ => .error "connect timeout"

/-- Witness for C6: the unreachable endpoint is excluded after all 3
attempts and, in particular, its second attempt did not return 200. -/
theorem check_server_excluded_only_if_no_200_witness :
    (check_server_status unreachableResp).2 ≤ 3 ∧ unreachableResp 1 ≠ .ok 200 :=
  ⟨(check_server_excluded_only_if_no_200 unreachableResp).2.1,
    (check_server_excluded_only_if_no_200 unreachableResp).2.2.1 rfl 1 (by decide)⟩

end CommonTools
